import Mathlib

/- Shallow embedding of src/telegram_command_bot.py (class TelegramCommandBot).
Prices (Python floats) are idealised as rationals. Python dicts are modelled
as association lists in insertion order, looked up by first matching key.
Network effects are modelled by explicit oracle arguments: a raised exception
inside the fetch loop is the UpResp.exn outcome (it is caught by the source,
line 157), and the already-fetched price seen by the sweep and the command
handler is a function from ticker strings to Option of a rational. -/

namespace StockAlerts

/-- Python str.upper(), characterwise on the underlying characters. -/
def upperStr (s : String) : String := ⟨s.data.map Char.toUpper⟩

/-- Python str.lower(), characterwise on the underlying characters. -/
def lowerStr (s : String) : String := ⟨s.data.map Char.toLower⟩

/-- Lookup by key in an association list, first match wins; models Python
dict membership and subscript access (lines 89, 325, 184, 201). -/
def alookup {α : Type} (k : String) : List (String × α) → Option α
  | [] => none
  | (k', v) :: rest => if k' = k then some v else alookup k rest

/-- In-place mutation of the value stored at a present key, a no-op when the
key is absent (lines 195-198, 211-214, 329-331). -/
def dictModify {α : Type} (m : List (String × α)) (k : String) (f : α → α) : List (String × α) :=
  match m with
  | [] => []
  | (k', v) :: rest => (k', if k' = k then f v else v) :: dictModify rest k f

/-- Dict assignment d[k] = v: replace in place when the key is present,
append at the end otherwise (lines 74, 81, 332). -/
def dictSet {α : Type} (m : List (String × α)) (k : String) (v : α) : List (String × α) :=
  if (alookup k m).isSome then dictModify m k (fun _ => v)
  else m ++ [(k, v)]

/-- Dict deletion del d[k] (lines 90, 92); deleting an absent key is the
identity, mirroring the membership guards around both del statements. -/
def dictDel {α : Type} (m : List (String × α)) (k : String) : List (String × α) :=
  match m with
  | [] => []
  | p :: rest => if p.1 = k then dictDel rest k else p :: dictDel rest k

/-- One alert record: alerts[symbol] = {ticker, upper_price, lower_price,
chat_id, active} (line 74). -/
structure AlertEntry where
  ticker : String
  upper_price : ℚ
  lower_price : ℚ
  chat_id : String
  active : Bool
deriving Repr, DecidableEq

/-- One notified-flags record: alert_sent[symbol] = {upper_sent, lower_sent}
(line 81). -/
structure SentFlags where
  upper_sent : Bool
  lower_sent : Bool
deriving Repr, DecidableEq

/-- The mutable state of the bot: the two dicts self.alerts and
self.alert_sent (lines 36-39). -/
structure BotState where
  alerts : List (String × AlertEntry)
  alert_sent : List (String × SentFlags)
deriving Repr, DecidableEq

/-- Method add_alert (lines 70-81): uppercase the symbol, derive the ticker
with the .NS suffix, store a fresh active entry and fresh flags. -/
def add_alert (σ : BotState) (chat_id stock_symbol : String) (lower_price upper_price : ℚ) : BotState :=
  let sym := upperStr stock_symbol
  let ticker := sym ++ ".NS"
  { alerts := dictSet σ.alerts sym ⟨ticker, upper_price, lower_price, chat_id, true⟩,
    alert_sent := dictSet σ.alert_sent sym ⟨false, false⟩ }

/-- Method remove_alert (lines 86-94): delete both records only when an entry
exists and its stored chat_id equals the requesting chat. -/
def remove_alert (σ : BotState) (chat_id stock_symbol : String) : BotState × Bool :=
  let sym := upperStr stock_symbol
  match alookup sym σ.alerts with
  | some e =>
    if e.chat_id = chat_id then
      ({ alerts := dictDel σ.alerts sym, alert_sent := dictDel σ.alert_sent sym }, true)
    else (σ, false)
  | none => (σ, false)

/- Quote source: get_current_price (lines 98-161). -/

/-- One element of the quote list: {close: [...]} with nullable closes
(line 145). -/
structure QuoteEntry where
  close : List (Option ℚ)
deriving Repr, DecidableEq

/-- One element of the chart result list: {indicators: {quote: [...]}}
(line 139). -/
structure ResultEntry where
  quote : List QuoteEntry
deriving Repr, DecidableEq

/-- Upstream outcome of one HTTP attempt. exn is a raised exception (caught
at line 157); resp carries the status code, whether the Content-Type header
contains application/json, and the parsed chart.result field (absent or a
list, line 133). -/
inductive UpResp
  | exn
  | resp (status : Nat) (jsonCT : Bool) (result : Option (List ResultEntry))
deriving Repr, DecidableEq

/-- First non-null element of a list of nullable prices. -/
def firstNonNull : List (Option ℚ) → Option ℚ
  | [] => none
  | some q :: _ => some q
  | none :: rest => firstNonNull rest

/-- Scan from the newest sample backward for a non-null close: the loop
for price in reversed(closes) at line 151. -/
def lastNonNull (l : List (Option ℚ)) : Option ℚ :=
  firstNonNull l.reverse

/-- Round half to even at integer precision, the rounding mode of the Python
built-in round, idealised over exact rationals. -/
def roundHalfEven (q : ℚ) : ℤ :=
  if q - (⌊q⌋ : ℚ) < 1/2 then ⌊q⌋
  else if 1/2 < q - (⌊q⌋ : ℚ) then ⌊q⌋ + 1
  else if ⌊q⌋ % 2 = 0 then ⌊q⌋ else ⌊q⌋ + 1

/-- round(x, 2) at line 153. -/
def round2 (q : ℚ) : ℚ :=
  (roundHalfEven (100 * q) : ℚ) / 100

/-- The guard cascade of one attempt (lines 122-149): status must be 200, the
Content-Type must be JSON, chart.result must be a non-empty list, quote must
be non-empty, close must be non-empty; on success yields the close series. -/
def extractCloses : UpResp → Option (List (Option ℚ))
  | .exn => none
  | .resp status jsonCT result =>
    if status ≠ 200 then none
    else if jsonCT = false then none
    else
      match result with
      | none => none
      | some [] => none
      | some (r0 :: _) =>
        match r0.quote with
        | [] => none
        | q0 :: _ =>
          match q0.close with
          | [] => none
          | closes => some closes

/-- Price produced by one attempt (lines 118-159): the most recent non-null
close rounded to two decimals, none when any guard fails, the series is all
null, or the request raised. -/
def attemptPrice (r : UpResp) : Option ℚ :=
  match extractCloses r with
  | none => none
  | some closes => (lastNonNull closes).map round2

/-- The fixed granularity fallback order (line 113). -/
def intervals : List String := ["1m", "5m", "15m"]

/-- The attempt indices of range(3) (line 118). -/
def attemptIdxs : List Nat := [0, 1, 2]

/-- First success of f over a list, in order. -/
def firstSome {α β : Type} (f : α → Option β) : List α → Option β
  | [] => none
  | a :: l => match f a with
    | some b => some b
    | none => firstSome f l

/-- Method get_current_price (lines 98-161) over an oracle giving the
upstream outcome of each (interval, attempt) pair: the first attempt that
yields a price returns it; exhausting all of them returns None. -/
def get_current_price (o : String → Nat → UpResp) : Option ℚ :=
  firstSome (fun interval => firstSome (fun attempt => attemptPrice (o interval attempt)) attemptIdxs) intervals

/-- Oracle under which every attempt answers a well-formed payload whose
single close is one third. -/
def cexOracle : String → Nat → UpResp := fun _ _ =>
  UpResp.resp 200 true (some [⟨[⟨[some (1/3)]⟩]⟩])

/- Monitoring: check_alerts (lines 165-217). -/

/-- Direction of a breach. -/
inductive Dir
  | upper
  | lower
deriving Repr, DecidableEq

/-- One breach notification sent by the sweep: the destination chat, the
symbol, the direction and the observed price (lines 184-192, 201-209). -/
structure Notif where
  chat_id : String
  symbol : String
  dir : Dir
  price : ℚ
deriving Repr, DecidableEq

/-- The expression self.alert_sent.get(symbol, {}).get(flag, False): a
missing record reads as both flags false (lines 184, 201). -/
def sentFlagsOf (sent : List (String × SentFlags)) (s : String) : SentFlags :=
  (alookup s sent).getD ⟨false, false⟩

/-- One iteration of the sweep loop body (lines 171-217) over the snapshot
item (symbol, entry): skip inactive entries, skip when the price fetch gave
None, otherwise fire at most one notification and mark the breach; p is the
already-fetched price per ticker, the result of get_current_price. -/
def processEntry (p : String → Option ℚ) (σ : BotState) (item : String × AlertEntry) : BotState × List Notif :=
  if item.2.active = false then (σ, [])
  else
    match p item.2.ticker with
    | none => (σ, [])
    | some price =>
      if price ≥ item.2.upper_price ∧ (sentFlagsOf σ.alert_sent item.1).upper_sent = false then
        ({ alerts := dictModify σ.alerts item.1 (fun e => { e with active := false }),
           alert_sent := dictModify σ.alert_sent item.1 (fun f => { f with upper_sent := true }) },
         [⟨item.2.chat_id, item.1, Dir.upper, price⟩])
      else if price ≤ item.2.lower_price ∧ (sentFlagsOf σ.alert_sent item.1).lower_sent = false then
        ({ alerts := dictModify σ.alerts item.1 (fun e => { e with active := false }),
           alert_sent := dictModify σ.alert_sent item.1 (fun f => { f with lower_sent := true }) },
         [⟨item.2.chat_id, item.1, Dir.lower, price⟩])
      else (σ, [])

/-- Fold of processEntry over the snapshot, threading the live state and
collecting notifications in order. -/
def sweepGo (p : String → Option ℚ) : BotState → List (String × AlertEntry) → BotState × List Notif
  | σ, [] => (σ, [])
  | σ, item :: rest =>
    let r1 := processEntry p σ item
    let r2 := sweepGo p r1.1 rest
    (r2.1, r1.2 ++ r2.2)

/-- Method check_alerts (lines 165-217): snapshot list(self.alerts.items())
under the lock, then evaluate every snapshot item in order. -/
def check_alerts (σ : BotState) (p : String → Option ℚ) : BotState × List Notif :=
  sweepGo p σ σ.alerts

/-- A sequence of sweep passes, one price oracle per pass. -/
def sweeps : BotState → List (String → Option ℚ) → BotState × List Notif
  | σ, [] => (σ, [])
  | σ, p :: ps =>
    let r1 := check_alerts σ p
    let r2 := sweeps r1.1 ps
    (r2.1, r1.2 ++ r2.2)

/- Command handling: handle_command (lines 241-385). The inbound text is
modelled after message_text.strip().split() as the list of its whitespace
separated tokens; a token records its raw text and whether the Python float
conversion of that text succeeds, and with which rational value. -/

/-- One whitespace separated token of the inbound message. -/
inductive Tok
  | word (s : String)
  | num (s : String) (q : ℚ)
deriving Repr, DecidableEq

/-- Raw text of a token. -/
def Tok.raw : Tok → String
  | .word s => s
  | .num s _ => s

/-- Result of the Python float conversion of a token: a ValueError is None
(lines 271-272, 306). -/
def Tok.toFloat : Tok → Option ℚ
  | .word _ => none
  | .num _ q => some q

/-- The reply sent back for one command, one constructor per distinct reply
text of the source, carrying the data interpolated into that text. -/
inductive Reply
  | help
  | addUsage
  | addBadNumber
  | lowerGeUpper
  | addedNoPrice (stock : String) (lower upper : ℚ)
  | addedWithPrice (stock : String) (price lower upper : ℚ)
  | updateUsage
  | updateBadNumber
  | updateNotFound (stock : String)
  | updated (stock : String) (current : Option ℚ) (lower upper : ℚ)
  | listEmpty
  | listOut (items : List (String × Bool × Option ℚ × ℚ × ℚ))
  | removeUsage
  | removed (stock : String)
  | removeNotFound (stock : String)
  | unknown
deriving Repr, DecidableEq

/-- Replies the /add handler gives without touching state: wrong arity
(line 266), non-numeric price (line 307), lower not below upper (line 275). -/
def Reply.isAddValidationError : Reply → Bool
  | .addUsage => true
  | .addBadNumber => true
  | .lowerGeUpper => true
  | _ => false

/-- The /add branch (lines 264-308). -/
def handleAdd (σ : BotState) (chat : String) (parts : List Tok) (p : String → Option ℚ) : BotState × List (String × Reply) :=
  match parts with
  | [_, t1, t2, t3] =>
    let stock := upperStr t1.raw
    match t2.toFloat, t3.toFloat with
    | some lower, some upper =>
      if lower ≥ upper then (σ, [(chat, Reply.lowerGeUpper)])
      else
        let σ' := add_alert σ chat stock lower upper
        match p (stock ++ ".NS") with
        | none => (σ', [(chat, Reply.addedNoPrice stock lower upper)])
        | some tp => (σ', [(chat, Reply.addedWithPrice stock tp lower upper)])
    | _, _ => (σ, [(chat, Reply.addBadNumber)])
  | _ => (σ, [(chat, Reply.addUsage)])

/-- The /update branch (lines 310-348). -/
def handleUpdate (σ : BotState) (chat : String) (parts : List Tok) (p : String → Option ℚ) : BotState × List (String × Reply) :=
  match parts with
  | [_, t1, t2, t3] =>
    let stock := upperStr t1.raw
    match t2.toFloat, t3.toFloat with
    | some lower, some upper =>
      if lower ≥ upper then (σ, [(chat, Reply.lowerGeUpper)])
      else
        match alookup stock σ.alerts with
        | none => (σ, [(chat, Reply.updateNotFound stock)])
        | some e =>
          if e.chat_id ≠ chat then (σ, [(chat, Reply.updateNotFound stock)])
          else
            ({ alerts := dictModify σ.alerts stock
                 (fun e => { e with lower_price := lower, upper_price := upper, active := true }),
               alert_sent := dictSet σ.alert_sent stock ⟨false, false⟩ },
             [(chat, Reply.updated stock (p (stock ++ ".NS")) lower upper)])
    | _, _ => (σ, [(chat, Reply.updateBadNumber)])
  | _ => (σ, [(chat, Reply.updateUsage)])

/-- The /list branch (lines 350-370): filter the alerts owned by the chat
and render them all into a single reply. -/
def handleList (σ : BotState) (chat : String) (p : String → Option ℚ) : BotState × List (String × Reply) :=
  let user_alerts := σ.alerts.filter (fun pr => pr.2.chat_id = chat)
  if user_alerts = [] then (σ, [(chat, Reply.listEmpty)])
  else (σ, [(chat, Reply.listOut (user_alerts.map
    (fun pr => (pr.1, pr.2.active, p pr.2.ticker, pr.2.lower_price, pr.2.upper_price))))])

/-- The /remove branch (lines 372-383). -/
def handleRemove (σ : BotState) (chat : String) (parts : List Tok) : BotState × List (String × Reply) :=
  match parts with
  | [_, t1] =>
    let r := remove_alert σ chat (upperStr t1.raw)
    if r.2 then (r.1, [(chat, Reply.removed (upperStr t1.raw))])
    else (r.1, [(chat, Reply.removeNotFound (upperStr t1.raw))])
  | _ => (σ, [(chat, Reply.removeUsage)])

/-- Method handle_command (lines 241-385): dispatch on the lowercased first
token; the final catch-all sends the unknown command reply, also for an
empty or whitespace-only message (empty token list). -/
def handle_command (σ : BotState) (chat : String) (parts : List Tok) (p : String → Option ℚ) : BotState × List (String × Reply) :=
  let cmd := match parts with
    | [] => ""
    | t :: _ => lowerStr t.raw
  if cmd = "/start" ∨ cmd = "/help" then (σ, [(chat, Reply.help)])
  else if cmd = "/add" then handleAdd σ chat parts p
  else if cmd = "/update" then handleUpdate σ chat parts p
  else if cmd = "/list" then handleList σ chat p
  else if cmd = "/remove" then handleRemove σ chat parts
  else (σ, [(chat, Reply.unknown)])

/-- The two dicts always hold records for exactly the same symbols. -/
def goodState (σ : BotState) : Prop :=
  ∀ s : String, (alookup s σ.alerts).isSome = (alookup s σ.alert_sent).isSome

theorem firstSome_eq_none {α β : Type} (f : α → Option β) (l : List α) :
    firstSome f l = none ↔ ∀ a ∈ l, f a = none := by
  induction l with
  | nil => simp [firstSome]
  | cons a l ih =>
    simp only [firstSome]
    cases h : f a with
    | some b => simp [h]
    | none => simp [h, ih]

theorem firstSome_eq_some {α β : Type} (f : α → Option β) (l : List α) (b : β)
    (h : firstSome f l = some b) : ∃ a ∈ l, f a = some b := by
  induction l with
  | nil => simp [firstSome] at h
  | cons a l ih =>
    simp only [firstSome] at h
    cases ha : f a with
    | some c => rw [ha] at h; exact ⟨a, by simp, by simpa [ha] using h⟩
    | none =>
      rw [ha] at h
      obtain ⟨a', ha', hfa⟩ := ih h
      exact ⟨a', by simp [ha'], hfa⟩

/-- C7: the quote fetch never raises (it is a total function of the oracle,
exceptions being the exn outcome handled at line 157) and returns None
exactly when every one of the 3 granularities times 3 attempts fails, hence
only after at least 9 failed attempts. -/
theorem unavailable_iff_all_attempts_fail (o : String → Nat → UpResp) :
    get_current_price o = none ↔
      ∀ i ∈ intervals, ∀ a ∈ attemptIdxs, attemptPrice (o i a) = none := by
  unfold get_current_price
  rw [firstSome_eq_none]
  refine forall_congr' fun i => forall_congr' fun _ => ?_
  rw [firstSome_eq_none]

/-- Witness for C7 at the all-failing oracle. -/
theorem unavailable_iff_all_attempts_fail_w :
    get_current_price (fun _ _ => UpResp.exn) = none :=
  (unavailable_iff_all_attempts_fail (fun _ _ => UpResp.exn)).mpr
    (by intro i _ a _; rfl)

theorem cexOracle_eval : get_current_price cexOracle = some (33/100) := by
  have h : round2 (3⁻¹ : ℚ) = 33/100 := by
    have hf : (⌊(100 : ℚ) * (3⁻¹ : ℚ)⌋ : ℤ) = 33 := by norm_num [Int.floor_eq_iff]
    simp only [round2, roundHalfEven, hf]
    norm_num
  simp [get_current_price, intervals, attemptIdxs, firstSome, cexOracle, attemptPrice,
    extractCloses, lastNonNull, firstNonNull, h]

/-- C8 counterexample: the source returns round(price, 2), not the raw most
recent non-null close: on a close series whose newest value is one third the
fetch returns 33/100, which differs from the most recent non-null value. -/
theorem fetch_price_rounding_cex :
    lastNonNull [some (1/3)] = some (1/3) ∧
    get_current_price cexOracle = some (33/100) ∧
    (33/100 : ℚ) ≠ 1/3 :=
  ⟨rfl, cexOracle_eval, by norm_num⟩

/-- C8 amended: an attempt yields a price exactly when the upstream response
passes every well-formedness guard and its close series has a non-null value;
the price is then the most recent non-null close rounded to two decimals, and
every successful fetch returns such a value from one of its attempts. -/
theorem attempt_price_spec :
    (∀ (r : UpResp) (q : ℚ), attemptPrice r = some q ↔
      ∃ closes v, extractCloses r = some closes ∧ lastNonNull closes = some v ∧ q = round2 v) ∧
    (∀ (o : String → Nat → UpResp) (q : ℚ), get_current_price o = some q →
      ∃ i ∈ intervals, ∃ a ∈ attemptIdxs, ∃ closes v,
        extractCloses (o i a) = some closes ∧ lastNonNull closes = some v ∧ q = round2 v) := by
  have hat : ∀ (r : UpResp) (q : ℚ), attemptPrice r = some q ↔
      ∃ closes v, extractCloses r = some closes ∧ lastNonNull closes = some v ∧ q = round2 v := by
    intro r q
    constructor
    · intro h
      simp only [attemptPrice] at h
      cases hx : extractCloses r with
      | none => simp [hx] at h
      | some closes =>
        cases hv : lastNonNull closes with
        | none => simp [hx, hv] at h
        | some v =>
          simp only [hx, hv, Option.map_some', Option.some_inj] at h
          exact ⟨closes, v, rfl, hv, h.symm⟩
    · rintro ⟨c, w, hc, hw, rfl⟩
      simp [attemptPrice, hc, hw]
  refine ⟨hat, ?_⟩
  intro o q h
  unfold get_current_price at h
  obtain ⟨i, hi, hfi⟩ := firstSome_eq_some _ _ _ h
  obtain ⟨a, ha, hfa⟩ := firstSome_eq_some _ _ _ hfi
  obtain ⟨closes, v, h1, h2, h3⟩ := (hat _ _).mp hfa
  exact ⟨i, hi, a, ha, closes, v, h1, h2, h3⟩

/-- Witness for C8 amended at the concrete counterexample oracle. -/
theorem attempt_price_spec_w :
    ∃ i ∈ intervals, ∃ a ∈ attemptIdxs, ∃ closes v,
      extractCloses (cexOracle i a) = some closes ∧ lastNonNull closes = some v ∧
      (33/100 : ℚ) = round2 v :=
  attempt_price_spec.2 cexOracle (33/100) cexOracle_eval

theorem alookup_dictModify {α : Type} (m : List (String × α)) (k : String) (f : α → α) (x : String) :
    alookup x (dictModify m k f) = if k = x then (alookup x m).map f else alookup x m := by
  induction m with
  | nil => simp [dictModify, alookup]
  | cons p rest ih =>
    obtain ⟨k', w⟩ := p
    rcases eq_or_ne k' k with rfl | h1
    · rcases eq_or_ne k' x with rfl | h2
      · simp [dictModify, alookup]
      · simp [dictModify, alookup, h2, ih]
    · rcases eq_or_ne k' x with rfl | h2
      · simp [dictModify, alookup, h1, Ne.symm h1]
      · simp [dictModify, alookup, h1, h2, ih]

theorem alookup_append {α : Type} (k : String) (m₁ m₂ : List (String × α)) :
    alookup k (m₁ ++ m₂) =
      match alookup k m₁ with
      | some v => some v
      | none => alookup k m₂ := by
  induction m₁ with
  | nil => simp [alookup]
  | cons p rest ih =>
    obtain ⟨k', w⟩ := p
    rcases eq_or_ne k' k with rfl | h1
    · simp [alookup]
    · simp [alookup, h1, ih]

theorem alookup_dictSet {α : Type} (m : List (String × α)) (k : String) (v : α) (x : String) :
    alookup x (dictSet m k v) = if k = x then some v else alookup x m := by
  unfold dictSet
  rcases hm : alookup k m with _ | w
  · simp only [hm, Option.isSome_none, Bool.false_eq_true, if_false, alookup_append]
    rcases eq_or_ne k x with rfl | h1
    · simp [hm, alookup]
    · cases hx : alookup x m <;> simp [alookup, h1, hx]
  · simp only [hm, Option.isSome_some, if_true, alookup_dictModify]
    rcases eq_or_ne k x with rfl | h1
    · simp [hm]
    · simp [h1]

theorem alookup_dictDel {α : Type} (m : List (String × α)) (k x : String) :
    alookup x (dictDel m k) = if k = x then none else alookup x m := by
  induction m with
  | nil => simp [dictDel, alookup]
  | cons p rest ih =>
    obtain ⟨k', w⟩ := p
    rcases eq_or_ne k' k with rfl | h1
    · rcases eq_or_ne k' x with rfl | h2
      · simp [dictDel, alookup, ih]
      · simp [dictDel, alookup, h2, ih]
    · rcases eq_or_ne k' x with rfl | h2
      · simp [dictDel, alookup, h1, Ne.symm h1]
      · simp [dictDel, alookup, h1, h2, ih]

/-- C6: remove_alert deletes the entry exactly when one exists for the
uppercased symbol and its stored chat_id equals the requesting chat; in
every other case it reports failure and leaves the state untouched. -/
theorem remove_iff_owner (σ : BotState) (chat stock : String) :
    ((remove_alert σ chat stock).2 = true ↔
      ∃ e, alookup (upperStr stock) σ.alerts = some e ∧ e.chat_id = chat) ∧
    ((remove_alert σ chat stock).2 = true →
      alookup (upperStr stock) (remove_alert σ chat stock).1.alerts = none ∧
      alookup (upperStr stock) (remove_alert σ chat stock).1.alert_sent = none) ∧
    ((remove_alert σ chat stock).2 = false → (remove_alert σ chat stock).1 = σ) := by
  rcases he : alookup (upperStr stock) σ.alerts with _ | e
  · have hr : remove_alert σ chat stock = (σ, false) := by
      simp only [remove_alert, he]
    rw [hr]
    refine ⟨⟨fun h => absurd h (by simp), ?_⟩, fun h => absurd h (by simp), fun _ => rfl⟩
    rintro ⟨e', he', hch⟩
    cases he'
  · by_cases hc : e.chat_id = chat
    · have hr : remove_alert σ chat stock =
          ({ alerts := dictDel σ.alerts (upperStr stock),
             alert_sent := dictDel σ.alert_sent (upperStr stock) }, true) := by
        simp only [remove_alert, he, if_pos hc]
      rw [hr]
      exact ⟨⟨fun _ => ⟨e, rfl, hc⟩, fun _ => rfl⟩,
        fun _ => ⟨by simp [alookup_dictDel], by simp [alookup_dictDel]⟩,
        fun h => absurd h (by simp)⟩
    · have hr : remove_alert σ chat stock = (σ, false) := by
        simp only [remove_alert, he, if_neg hc]
      rw [hr]
      refine ⟨⟨fun h => absurd h (by simp), ?_⟩, fun h => absurd h (by simp), fun _ => rfl⟩
      rintro ⟨e', he', hch⟩
      cases he'
      exact absurd hch hc

/-- Witness for C6 at a one-entry state owned by the requesting chat. -/
theorem remove_iff_owner_w :
    (remove_alert ⟨[("INFY", ⟨"INFY.NS", 1550, 1350, "c1", true⟩)], [("INFY", ⟨false, false⟩)]⟩
        "c1" "infy").2 = true := by
  refine (remove_iff_owner _ "c1" "infy").1.mpr ⟨⟨"INFY.NS", 1550, 1350, "c1", true⟩, ?_, rfl⟩
  rfl

theorem handleAdd_one (σ : BotState) (chat : String) (parts : List Tok) (p : String → Option ℚ) :
    ∃ r, (handleAdd σ chat parts p).2 = [(chat, r)] := by
  unfold handleAdd
  dsimp only
  repeat' split
  all_goals exact ⟨_, rfl⟩

theorem handleUpdate_one (σ : BotState) (chat : String) (parts : List Tok) (p : String → Option ℚ) :
    ∃ r, (handleUpdate σ chat parts p).2 = [(chat, r)] := by
  unfold handleUpdate
  dsimp only
  repeat' split
  all_goals exact ⟨_, rfl⟩

theorem handleList_one (σ : BotState) (chat : String) (p : String → Option ℚ) :
    ∃ r, (handleList σ chat p).2 = [(chat, r)] := by
  unfold handleList
  dsimp only
  repeat' split
  all_goals exact ⟨_, rfl⟩

theorem handleRemove_one (σ : BotState) (chat : String) (parts : List Tok) :
    ∃ r, (handleRemove σ chat parts).2 = [(chat, r)] := by
  unfold handleRemove
  dsimp only
  repeat' split
  all_goals exact ⟨_, rfl⟩

theorem handle_command_cons (σ : BotState) (chat : String) (t0 : Tok) (rest : List Tok)
    (p : String → Option ℚ) :
    handle_command σ chat (t0 :: rest) p =
      (if lowerStr t0.raw = "/start" ∨ lowerStr t0.raw = "/help" then (σ, [(chat, Reply.help)])
       else if lowerStr t0.raw = "/add" then handleAdd σ chat (t0 :: rest) p
       else if lowerStr t0.raw = "/update" then handleUpdate σ chat (t0 :: rest) p
       else if lowerStr t0.raw = "/list" then handleList σ chat p
       else if lowerStr t0.raw = "/remove" then handleRemove σ chat (t0 :: rest)
       else (σ, [(chat, Reply.unknown)])) := rfl

/-- C2: every invocation of handle_command, for every state, chat, token
list (any verb, any arity, or an empty message) and price feed, sends
exactly one reply, and sends it to the requesting chat. -/
theorem exactly_one_reply (σ : BotState) (chat : String) (parts : List Tok) (p : String → Option ℚ) :
    ∃ r, (handle_command σ chat parts p).2 = [(chat, r)] := by
  cases parts with
  | nil => exact ⟨Reply.unknown, rfl⟩
  | cons t0 rest =>
    rw [handle_command_cons]
    by_cases h1 : lowerStr t0.raw = "/start" ∨ lowerStr t0.raw = "/help"
    · rw [if_pos h1]; exact ⟨_, rfl⟩
    · rw [if_neg h1]
      by_cases h2 : lowerStr t0.raw = "/add"
      · rw [if_pos h2]; exact handleAdd_one σ chat (t0 :: rest) p
      · rw [if_neg h2]
        by_cases h3 : lowerStr t0.raw = "/update"
        · rw [if_pos h3]; exact handleUpdate_one σ chat (t0 :: rest) p
        · rw [if_neg h3]
          by_cases h4 : lowerStr t0.raw = "/list"
          · rw [if_pos h4]; exact handleList_one σ chat p
          · rw [if_neg h4]
            by_cases h5 : lowerStr t0.raw = "/remove"
            · rw [if_pos h5]; exact handleRemove_one σ chat (t0 :: rest)
            · rw [if_neg h5]; exact ⟨_, rfl⟩

theorem handle_command_eq_add (σ : BotState) (chat : String) (t0 : Tok) (rest : List Tok)
    (p : String → Option ℚ) (hcmd : lowerStr t0.raw = "/add") :
    handle_command σ chat (t0 :: rest) p = handleAdd σ chat (t0 :: rest) p := by
  rw [handle_command_cons, hcmd, if_neg (by decide), if_pos rfl]

theorem handle_command_eq_update (σ : BotState) (chat : String) (t0 : Tok) (rest : List Tok)
    (p : String → Option ℚ) (hcmd : lowerStr t0.raw = "/update") :
    handle_command σ chat (t0 :: rest) p = handleUpdate σ chat (t0 :: rest) p := by
  rw [handle_command_cons, hcmd, if_neg (by decide), if_neg (by decide), if_pos rfl]

theorem handleAdd_badnum (σ : BotState) (chat : String) (t0 t1 t2 t3 : Tok)
    (p : String → Option ℚ) (h : t2.toFloat = none ∨ t3.toFloat = none) :
    handleAdd σ chat [t0, t1, t2, t3] p = (σ, [(chat, Reply.addBadNumber)]) := by
  unfold handleAdd
  rcases h with h | h
  · cases h3 : t3.toFloat <;> simp [h, h3]
  · cases h2 : t2.toFloat <;> simp [h, h2]

theorem handleAdd_ge (σ : BotState) (chat : String) (t0 t1 t2 t3 : Tok)
    (p : String → Option ℚ) (l u : ℚ)
    (h2 : t2.toFloat = some l) (h3 : t3.toFloat = some u) (hlu : l ≥ u) :
    handleAdd σ chat [t0, t1, t2, t3] p = (σ, [(chat, Reply.lowerGeUpper)]) := by
  unfold handleAdd
  simp [h2, h3, hlu]

theorem handleAdd_valid (σ : BotState) (chat : String) (t0 t1 t2 t3 : Tok)
    (p : String → Option ℚ) (l u : ℚ)
    (h2 : t2.toFloat = some l) (h3 : t3.toFloat = some u) (hlu : ¬ l ≥ u) :
    handleAdd σ chat [t0, t1, t2, t3] p =
      (add_alert σ chat (upperStr t1.raw) l u,
       [(chat, match p (upperStr t1.raw ++ ".NS") with
         | none => Reply.addedNoPrice (upperStr t1.raw) l u
         | some tp => Reply.addedWithPrice (upperStr t1.raw) tp l u)]) := by
  unfold handleAdd
  simp only [h2, h3, if_neg hlu]
  cases hp : p (upperStr t1.raw ++ ".NS") <;> simp [hp]

/-- C3: an /add command with wrong arity, a non-numeric price, or lower not
below upper leaves the state untouched and sends one validation error
reply. -/
theorem add_invalid_no_mutation (σ : BotState) (chat : String) (p : String → Option ℚ)
    (t0 : Tok) (rest : List Tok) (hcmd : lowerStr t0.raw = "/add")
    (hbad : (t0 :: rest).length ≠ 4
      ∨ (∃ t1 t2 t3, rest = [t1, t2, t3] ∧ (t2.toFloat = none ∨ t3.toFloat = none))
      ∨ (∃ t1 t2 t3 l u, rest = [t1, t2, t3] ∧
          t2.toFloat = some l ∧ t3.toFloat = some u ∧ l ≥ u)) :
    (handle_command σ chat (t0 :: rest) p).1 = σ ∧
    ∃ r, (handle_command σ chat (t0 :: rest) p).2 = [(chat, r)] ∧
      r.isAddValidationError = true := by
  rw [handle_command_eq_add σ chat t0 rest p hcmd]
  rcases hbad with hlen | ⟨t1, t2, t3, hr, hpf⟩ | ⟨t1, t2, t3, l, u, hr, h2, h3, hlu⟩
  · rcases rest with _ | ⟨a, _ | ⟨b, _ | ⟨c, _ | ⟨d, rr⟩⟩⟩⟩
    · exact ⟨rfl, Reply.addUsage, rfl, rfl⟩
    · exact ⟨rfl, Reply.addUsage, rfl, rfl⟩
    · exact ⟨rfl, Reply.addUsage, rfl, rfl⟩
    · exact absurd rfl hlen
    · exact ⟨rfl, Reply.addUsage, rfl, rfl⟩
  · subst hr
    rw [handleAdd_badnum σ chat t0 t1 t2 t3 p hpf]
    exact ⟨rfl, Reply.addBadNumber, rfl, rfl⟩
  · subst hr
    rw [handleAdd_ge σ chat t0 t1 t2 t3 p l u h2 h3 hlu]
    exact ⟨rfl, Reply.lowerGeUpper, rfl, rfl⟩

/-- Witness for C3 at a bare /add with no arguments. -/
theorem add_invalid_no_mutation_w :
    (handle_command ⟨[], []⟩ "c1" [Tok.word "/add"] (fun _ => none)).1 = (⟨[], []⟩ : BotState) ∧
    ∃ r, (handle_command ⟨[], []⟩ "c1" [Tok.word "/add"] (fun _ => none)).2 = [("c1", r)] ∧
      r.isAddValidationError = true :=
  add_invalid_no_mutation ⟨[], []⟩ "c1" (fun _ => none) (Tok.word "/add") []
    (by decide) (Or.inl (by decide))

/-- C4: a valid /add (arity four, both prices numeric, lower below upper)
unconditionally creates or replaces the entry for the uppercased symbol with
the requesting chat as owner, fresh flags and active true; the stored state
does not depend on the price feed, and the reply varies only in whether a
current price is shown. -/
theorem add_valid_creates (σ : BotState) (chat : String) (p : String → Option ℚ)
    (t0 t1 t2 t3 : Tok) (l u : ℚ)
    (hcmd : lowerStr t0.raw = "/add")
    (h2 : t2.toFloat = some l) (h3 : t3.toFloat = some u) (hlu : l < u) :
    alookup (upperStr (upperStr t1.raw)) (handle_command σ chat [t0, t1, t2, t3] p).1.alerts =
      some ⟨upperStr (upperStr t1.raw) ++ ".NS", u, l, chat, true⟩ ∧
    alookup (upperStr (upperStr t1.raw)) (handle_command σ chat [t0, t1, t2, t3] p).1.alert_sent =
      some ⟨false, false⟩ ∧
    (∀ p', (handle_command σ chat [t0, t1, t2, t3] p').1 =
      (handle_command σ chat [t0, t1, t2, t3] p).1) ∧
    (handle_command σ chat [t0, t1, t2, t3] p).2 =
      [(chat, match p (upperStr t1.raw ++ ".NS") with
        | none => Reply.addedNoPrice (upperStr t1.raw) l u
        | some tp => Reply.addedWithPrice (upperStr t1.raw) tp l u)] := by
  have hlu' : ¬ l ≥ u := not_le.mpr hlu
  rw [handle_command_eq_add σ chat t0 [t1, t2, t3] p hcmd,
    handleAdd_valid σ chat t0 t1 t2 t3 p l u h2 h3 hlu']
  refine ⟨?_, ?_, ?_, rfl⟩
  · simp [add_alert, alookup_dictSet]
  · simp [add_alert, alookup_dictSet]
  · intro p'
    rw [handle_command_eq_add σ chat t0 [t1, t2, t3] p' hcmd,
      handleAdd_valid σ chat t0 t1 t2 t3 p' l u h2 h3 hlu']

/-- Witness for C4: adding INFY to the empty state with the feed down. -/
theorem add_valid_creates_w :
    alookup "INFY" (handle_command ⟨[], []⟩ "c1"
        [Tok.word "/add", Tok.word "infy", Tok.num "1350" 1350, Tok.num "1550" 1550]
        (fun _ => none)).1.alerts =
      some ⟨"INFY.NS", 1550, 1350, "c1", true⟩ ∧
    alookup "INFY" (handle_command ⟨[], []⟩ "c1"
        [Tok.word "/add", Tok.word "infy", Tok.num "1350" 1350, Tok.num "1550" 1550]
        (fun _ => none)).1.alert_sent = some ⟨false, false⟩ := by
  have h := add_valid_creates ⟨[], []⟩ "c1" (fun _ => none)
    (Tok.word "/add") (Tok.word "infy") (Tok.num "1350" 1350) (Tok.num "1550" 1550)
    1350 1550 (by decide) rfl rfl (by norm_num)
  exact ⟨h.1, h.2.1⟩

theorem handleUpdate_notfound (σ : BotState) (chat : String) (t0 t1 t2 t3 : Tok)
    (p : String → Option ℚ) (l u : ℚ)
    (h2 : t2.toFloat = some l) (h3 : t3.toFloat = some u) (hlu : ¬ l ≥ u)
    (hnf : alookup (upperStr t1.raw) σ.alerts = none ∨
      ∃ e, alookup (upperStr t1.raw) σ.alerts = some e ∧ e.chat_id ≠ chat) :
    handleUpdate σ chat [t0, t1, t2, t3] p =
      (σ, [(chat, Reply.updateNotFound (upperStr t1.raw))]) := by
  unfold handleUpdate
  simp only [h2, h3, if_neg hlu]
  rcases hnf with h | ⟨e, he, hne⟩
  · simp [h]
  · simp [he, hne]

/-- C5: a well-formed /update naming a symbol that is absent or owned by a
different chat leaves the state untouched and replies with the same
not-found message in both cases. -/
theorem update_not_found_no_mutation (σ : BotState) (chat : String) (p : String → Option ℚ)
    (t0 t1 t2 t3 : Tok) (l u : ℚ)
    (hcmd : lowerStr t0.raw = "/update")
    (h2 : t2.toFloat = some l) (h3 : t3.toFloat = some u) (hlu : l < u)
    (hnf : alookup (upperStr t1.raw) σ.alerts = none ∨
      ∃ e, alookup (upperStr t1.raw) σ.alerts = some e ∧ e.chat_id ≠ chat) :
    (handle_command σ chat [t0, t1, t2, t3] p).1 = σ ∧
    (handle_command σ chat [t0, t1, t2, t3] p).2 =
      [(chat, Reply.updateNotFound (upperStr t1.raw))] := by
  rw [handle_command_eq_update σ chat t0 [t1, t2, t3] p hcmd,
    handleUpdate_notfound σ chat t0 t1 t2 t3 p l u h2 h3 (not_le.mpr hlu) hnf]
  exact ⟨rfl, rfl⟩

/-- Witness for C5: an update from a chat that does not own the entry. -/
theorem update_not_found_no_mutation_w :
    (handle_command ⟨[("INFY", ⟨"INFY.NS", 1550, 1350, "c2", true⟩)], [("INFY", ⟨false, false⟩)]⟩
        "c1" [Tok.word "/update", Tok.word "infy", Tok.num "1340" 1340, Tok.num "1560" 1560]
        (fun _ => none)).1 =
      (⟨[("INFY", ⟨"INFY.NS", 1550, 1350, "c2", true⟩)], [("INFY", ⟨false, false⟩)]⟩ : BotState) ∧
    (handle_command ⟨[("INFY", ⟨"INFY.NS", 1550, 1350, "c2", true⟩)], [("INFY", ⟨false, false⟩)]⟩
        "c1" [Tok.word "/update", Tok.word "infy", Tok.num "1340" 1340, Tok.num "1560" 1560]
        (fun _ => none)).2 = [("c1", Reply.updateNotFound "INFY")] :=
  update_not_found_no_mutation _ "c1" (fun _ => none)
    (Tok.word "/update") (Tok.word "infy") (Tok.num "1340" 1340) (Tok.num "1560" 1560)
    1340 1560 (by decide) rfl rfl (by norm_num)
    (Or.inr ⟨⟨"INFY.NS", 1550, 1350, "c2", true⟩, rfl, by decide⟩)

theorem goodState_add (σ : BotState) (chat s : String) (l u : ℚ) (hg : goodState σ) :
    goodState (add_alert σ chat s l u) := by
  intro x
  by_cases hx : upperStr s = x
  · simp [add_alert, alookup_dictSet, hx]
  · simp [add_alert, alookup_dictSet, hx, hg x]

theorem goodState_remove (σ : BotState) (chat s : String) (hg : goodState σ) :
    goodState (remove_alert σ chat s).1 := by
  unfold remove_alert
  dsimp only
  repeat' split
  any_goals exact hg
  intro x
  simp only [alookup_dictDel]
  by_cases hx : upperStr s = x
  · simp [hx]
  · simp [hx, hg x]

theorem goodState_update_state (σ : BotState) (S : String) (e : AlertEntry)
    (f : AlertEntry → AlertEntry) (v : SentFlags) (hg : goodState σ)
    (he : alookup S σ.alerts = some e) :
    goodState { alerts := dictModify σ.alerts S f, alert_sent := dictSet σ.alert_sent S v } := by
  intro x
  simp only [alookup_dictModify, alookup_dictSet]
  by_cases hx : S = x
  · subst hx; simp [he]
  · simp [hx, hg x]

theorem handleAdd_good (σ : BotState) (chat : String) (parts : List Tok)
    (p : String → Option ℚ) (hg : goodState σ) :
    goodState (handleAdd σ chat parts p).1 := by
  unfold handleAdd
  dsimp only
  repeat' split
  any_goals exact hg
  all_goals exact goodState_add σ chat _ _ _ hg

theorem handleUpdate_good (σ : BotState) (chat : String) (parts : List Tok)
    (p : String → Option ℚ) (hg : goodState σ) :
    goodState (handleUpdate σ chat parts p).1 := by
  unfold handleUpdate
  dsimp only
  repeat' split
  any_goals exact hg
  all_goals exact goodState_update_state σ _ _ _ _ hg (by assumption)

theorem handleList_good (σ : BotState) (chat : String) (p : String → Option ℚ)
    (hg : goodState σ) :
    goodState (handleList σ chat p).1 := by
  unfold handleList
  dsimp only
  repeat' split
  all_goals exact hg

theorem handleRemove_good (σ : BotState) (chat : String) (parts : List Tok)
    (hg : goodState σ) :
    goodState (handleRemove σ chat parts).1 := by
  unfold handleRemove
  dsimp only
  repeat' split
  any_goals exact hg
  all_goals exact goodState_remove σ chat _ hg

theorem goodState_processEntry (p : String → Option ℚ) (σ : BotState)
    (item : String × AlertEntry) (hg : goodState σ) :
    goodState (processEntry p σ item).1 := by
  unfold processEntry
  repeat' split
  any_goals exact hg
  all_goals
    intro x
    simp only [alookup_dictModify]
    by_cases hx : item.1 = x
    · simp [hx, hg x]
    · simp [hx, hg x]

theorem goodState_sweepGo (p : String → Option ℚ) (l : List (String × AlertEntry))
    (σ : BotState) (hg : goodState σ) :
    goodState (sweepGo p σ l).1 := by
  induction l generalizing σ with
  | nil => exact hg
  | cons item rest ih =>
    exact ih (processEntry p σ item).1 (goodState_processEntry p σ item hg)

/-- C10: the alerts dict and the alert_sent dict always hold records for
exactly the same symbols: the invariant is preserved by every command
(add, update, remove and the rest) and by a full sweep pass. -/
theorem key_invariant (σ : BotState) (chat : String) (parts : List Tok)
    (p pr : String → Option ℚ) (hg : goodState σ) :
    goodState (handle_command σ chat parts p).1 ∧ goodState (check_alerts σ pr).1 := by
  refine ⟨?_, goodState_sweepGo pr σ.alerts σ hg⟩
  cases parts with
  | nil => exact hg
  | cons t0 rest =>
    rw [handle_command_cons]
    by_cases h1 : lowerStr t0.raw = "/start" ∨ lowerStr t0.raw = "/help"
    · rw [if_pos h1]; exact hg
    · rw [if_neg h1]
      by_cases h2 : lowerStr t0.raw = "/add"
      · rw [if_pos h2]; exact handleAdd_good σ chat (t0 :: rest) p hg
      · rw [if_neg h2]
        by_cases h3 : lowerStr t0.raw = "/update"
        · rw [if_pos h3]; exact handleUpdate_good σ chat (t0 :: rest) p hg
        · rw [if_neg h3]
          by_cases h4 : lowerStr t0.raw = "/list"
          · rw [if_pos h4]; exact handleList_good σ chat p hg
          · rw [if_neg h4]
            by_cases h5 : lowerStr t0.raw = "/remove"
            · rw [if_pos h5]; exact handleRemove_good σ chat (t0 :: rest) hg
            · rw [if_neg h5]; exact hg

/-- Witness for C10 at the empty state. -/
theorem key_invariant_w :
    goodState (handle_command ⟨[], []⟩ "c1"
      [Tok.word "/add", Tok.word "infy", Tok.num "1350" 1350, Tok.num "1550" 1550]
      (fun _ => none)).1 ∧
    goodState (check_alerts ⟨[], []⟩ (fun _ => none)).1 :=
  key_invariant ⟨[], []⟩ "c1"
    [Tok.word "/add", Tok.word "infy", Tok.num "1350" 1350, Tok.num "1550" 1550]
    (fun _ => none) (fun _ => none) (fun _ => rfl)

theorem alookup_split {α : Type} (m : List (String × α)) (s : String) (e : α)
    (hl : alookup s m = some e) :
    ∃ l₁ l₂, m = l₁ ++ (s, e) :: l₂ ∧ s ∉ l₁.map Prod.fst := by
  induction m with
  | nil => simp [alookup] at hl
  | cons pr rest ih =>
    obtain ⟨k', w⟩ := pr
    by_cases hk : k' = s
    · subst hk
      simp [alookup] at hl
      subst hl
      exact ⟨[], rest, rfl, by simp⟩
    · simp only [alookup, if_neg hk] at hl
      obtain ⟨l₁, l₂, hm, hns⟩ := ih hl
      refine ⟨(k', w) :: l₁, l₂, by simp [hm], ?_⟩
      simp only [List.map_cons, List.mem_cons]
      push_neg
      exact ⟨fun h => hk h.symm, hns⟩

theorem alookup_unique {α : Type} (m : List (String × α)) (s : String) (e : α)
    (hnd : (m.map Prod.fst).Nodup) (hl : alookup s m = some e) :
    ∀ v, (s, v) ∈ m → v = e := by
  induction m with
  | nil => intro v hv; simp at hv
  | cons pr rest ih =>
    obtain ⟨k', w⟩ := pr
    intro v hv
    rcases List.mem_cons.mp hv with hv | hv
    · injection hv with hsk hvw
      subst hsk
      simp [alookup] at hl
      exact hvw.trans hl
    · by_cases hk : k' = s
      · subst hk
        exfalso
        have hmem : k' ∈ rest.map Prod.fst := List.mem_map.mpr ⟨(k', v), hv, rfl⟩
        exact (List.nodup_cons.mp hnd).1 hmem
      · simp only [alookup, if_neg hk] at hl
        exact ih (List.nodup_cons.mp hnd).2 hl v hv

theorem dictModify_keys {α : Type} (m : List (String × α)) (k : String) (f : α → α) :
    (dictModify m k f).map Prod.fst = m.map Prod.fst := by
  induction m with
  | nil => rfl
  | cons pr rest ih =>
    obtain ⟨k', v⟩ := pr
    simp [dictModify, ih]

theorem processEntry_keys (p : String → Option ℚ) (σ : BotState) (item : String × AlertEntry) :
    (processEntry p σ item).1.alerts.map Prod.fst = σ.alerts.map Prod.fst ∧
    (processEntry p σ item).1.alert_sent.map Prod.fst = σ.alert_sent.map Prod.fst := by
  unfold processEntry
  repeat' split
  all_goals first
    | exact ⟨rfl, rfl⟩
    | exact ⟨dictModify_keys _ _ _, dictModify_keys _ _ _⟩

theorem sweepGo_keys (p : String → Option ℚ) (l : List (String × AlertEntry)) (σ : BotState) :
    (sweepGo p σ l).1.alerts.map Prod.fst = σ.alerts.map Prod.fst ∧
    (sweepGo p σ l).1.alert_sent.map Prod.fst = σ.alert_sent.map Prod.fst := by
  induction l generalizing σ with
  | nil => exact ⟨rfl, rfl⟩
  | cons item rest ih =>
    obtain ⟨h1, h2⟩ := processEntry_keys p σ item
    obtain ⟨h3, h4⟩ := ih (processEntry p σ item).1
    exact ⟨h3.trans h1, h4.trans h2⟩

theorem check_alerts_keys (σ : BotState) (p : String → Option ℚ) :
    (check_alerts σ p).1.alerts.map Prod.fst = σ.alerts.map Prod.fst :=
  (sweepGo_keys p σ.alerts σ).1

theorem processEntry_skip (p : String → Option ℚ) (σ : BotState) (item : String × AlertEntry)
    (h : item.2.active = false ∨ p item.2.ticker = none) :
    processEntry p σ item = (σ, []) := by
  rcases h with h | h
  · simp [processEntry, h]
  · by_cases ha : item.2.active = false
    · simp [processEntry, ha]
    · simp [processEntry, ha, h]

theorem processEntry_other (p : String → Option ℚ) (σ : BotState) (item : String × AlertEntry)
    (s : String) (hk : item.1 ≠ s) :
    alookup s (processEntry p σ item).1.alerts = alookup s σ.alerts ∧
    alookup s (processEntry p σ item).1.alert_sent = alookup s σ.alert_sent ∧
    (processEntry p σ item).2.filter (fun n => n.symbol = s) = [] := by
  unfold processEntry
  repeat' split
  all_goals first
    | exact ⟨rfl, rfl, rfl⟩
    | exact ⟨by rw [alookup_dictModify, if_neg hk],
        by rw [alookup_dictModify, if_neg hk], by simp [hk]⟩

theorem sweepGo_cons (p : String → Option ℚ) (σ : BotState) (item : String × AlertEntry)
    (rest : List (String × AlertEntry)) :
    sweepGo p σ (item :: rest) =
      ((sweepGo p (processEntry p σ item).1 rest).1,
       (processEntry p σ item).2 ++ (sweepGo p (processEntry p σ item).1 rest).2) := rfl

theorem sweepGo_append (p : String → Option ℚ) (σ : BotState)
    (l₁ l₂ : List (String × AlertEntry)) :
    sweepGo p σ (l₁ ++ l₂) =
      ((sweepGo p (sweepGo p σ l₁).1 l₂).1,
       (sweepGo p σ l₁).2 ++ (sweepGo p (sweepGo p σ l₁).1 l₂).2) := by
  induction l₁ generalizing σ with
  | nil => rfl
  | cons item rest ih =>
    simp only [List.cons_append, sweepGo_cons, ih, List.append_assoc]

theorem sweepGo_frame (p : String → Option ℚ) (s : String) (l : List (String × AlertEntry))
    (σ : BotState)
    (h : ∀ item ∈ l, item.1 = s → (item.2.active = false ∨ p item.2.ticker = none)) :
    alookup s (sweepGo p σ l).1.alerts = alookup s σ.alerts ∧
    alookup s (sweepGo p σ l).1.alert_sent = alookup s σ.alert_sent ∧
    (sweepGo p σ l).2.filter (fun n => n.symbol = s) = [] := by
  induction l generalizing σ with
  | nil => exact ⟨rfl, rfl, rfl⟩
  | cons item rest ih =>
    have hrest : ∀ it ∈ rest, it.1 = s → (it.2.active = false ∨ p it.2.ticker = none) :=
      fun it hit => h it (List.mem_cons_of_mem _ hit)
    by_cases hk : item.1 = s
    · have hpe : processEntry p σ item = (σ, []) :=
        processEntry_skip p σ item (h item (List.mem_cons_self _ _) hk)
      rw [sweepGo_cons, hpe]
      simpa using ih σ hrest
    · obtain ⟨h1, h2, h3⟩ := processEntry_other p σ item s hk
      obtain ⟨h4, h5, h6⟩ := ih (processEntry p σ item).1 hrest
      rw [sweepGo_cons]
      refine ⟨h4.trans h1, h5.trans h2, ?_⟩
      simp [List.filter_append, h3, h6]

theorem processEntry_fire_upper (p : String → Option ℚ) (σ : BotState) (s : String)
    (e : AlertEntry) (q : ℚ)
    (ha : e.active = true) (hq : p e.ticker = some q) (hge : q ≥ e.upper_price)
    (hns : (sentFlagsOf σ.alert_sent s).upper_sent = false) :
    processEntry p σ (s, e) =
      ({ alerts := dictModify σ.alerts s (fun a => { a with active := false }),
         alert_sent := dictModify σ.alert_sent s (fun f => { f with upper_sent := true }) },
       [⟨e.chat_id, s, Dir.upper, q⟩]) := by
  simp [processEntry, ha, hq, hge, hns]

theorem processEntry_fire_lower (p : String → Option ℚ) (σ : BotState) (s : String)
    (e : AlertEntry) (q : ℚ)
    (ha : e.active = true) (hq : p e.ticker = some q)
    (hnge : ¬ q ≥ e.upper_price) (hle : q ≤ e.lower_price)
    (hns : (sentFlagsOf σ.alert_sent s).lower_sent = false) :
    processEntry p σ (s, e) =
      ({ alerts := dictModify σ.alerts s (fun a => { a with active := false }),
         alert_sent := dictModify σ.alert_sent s (fun f => { f with lower_sent := true }) },
       [⟨e.chat_id, s, Dir.lower, q⟩]) := by
  simp [processEntry, ha, hq, hnge, hle, hns]

theorem check_fire_upper (σ : BotState) (s : String) (e : AlertEntry) (fl : SentFlags)
    (q : ℚ) (p : String → Option ℚ)
    (hnd : (σ.alerts.map Prod.fst).Nodup)
    (hl : alookup s σ.alerts = some e)
    (ha : e.active = true)
    (hfl : alookup s σ.alert_sent = some fl)
    (hns : fl.upper_sent = false)
    (hq : p e.ticker = some q)
    (hge : q ≥ e.upper_price) :
    (check_alerts σ p).2.filter (fun n => n.symbol = s) = [⟨e.chat_id, s, Dir.upper, q⟩] ∧
    alookup s (check_alerts σ p).1.alerts = some { e with active := false } ∧
    alookup s (check_alerts σ p).1.alert_sent = some { fl with upper_sent := true } := by
  obtain ⟨l₁, l₂, hm, hn1⟩ := alookup_split σ.alerts s e hl
  have hn2 : s ∉ l₂.map Prod.fst := by
    rw [hm] at hnd
    simp only [List.map_append, List.map_cons] at hnd
    exact (List.nodup_cons.mp (List.Nodup.of_append_right hnd)).1
  obtain ⟨ha1, hs1, hf1⟩ := sweepGo_frame p s l₁ σ
    (fun it hit hits => absurd (List.mem_map.mpr ⟨it, hit, hits⟩) hn1)
  have hsf : sentFlagsOf (sweepGo p σ l₁).1.alert_sent s = fl := by
    unfold sentFlagsOf
    rw [hs1, hfl]
    rfl
  have hfire := processEntry_fire_upper p (sweepGo p σ l₁).1 s e q ha hq hge
    (by rw [hsf]; exact hns)
  obtain ⟨ha3, hs3, hf3⟩ := sweepGo_frame p s l₂
    ({ alerts := dictModify (sweepGo p σ l₁).1.alerts s (fun a => { a with active := false }),
       alert_sent := dictModify (sweepGo p σ l₁).1.alert_sent s
         (fun f => { f with upper_sent := true }) } : BotState)
    (fun it hit hits => absurd (List.mem_map.mpr ⟨it, hit, hits⟩) hn2)
  have hrun : check_alerts σ p =
      ((sweepGo p
          ({ alerts := dictModify (sweepGo p σ l₁).1.alerts s (fun a => { a with active := false }),
             alert_sent := dictModify (sweepGo p σ l₁).1.alert_sent s
               (fun f => { f with upper_sent := true }) } : BotState) l₂).1,
       (sweepGo p σ l₁).2 ++ ([⟨e.chat_id, s, Dir.upper, q⟩] ++
        (sweepGo p
          ({ alerts := dictModify (sweepGo p σ l₁).1.alerts s (fun a => { a with active := false }),
             alert_sent := dictModify (sweepGo p σ l₁).1.alert_sent s
               (fun f => { f with upper_sent := true }) } : BotState) l₂).2)) := by
    unfold check_alerts
    rw [hm, sweepGo_append, sweepGo_cons, hfire]
  rw [hrun]
  refine ⟨?_, ?_, ?_⟩
  · simp [List.filter_append, hf1, hf3]
  · rw [ha3, alookup_dictModify, if_pos rfl, ha1, hl]
    rfl
  · rw [hs3, alookup_dictModify, if_pos rfl, hs1, hfl]
    rfl

theorem check_fire_lower (σ : BotState) (s : String) (e : AlertEntry) (fl : SentFlags)
    (q : ℚ) (p : String → Option ℚ)
    (hnd : (σ.alerts.map Prod.fst).Nodup)
    (hl : alookup s σ.alerts = some e)
    (ha : e.active = true)
    (hfl : alookup s σ.alert_sent = some fl)
    (hns : fl.lower_sent = false)
    (hq : p e.ticker = some q)
    (hnge : ¬ q ≥ e.upper_price)
    (hle : q ≤ e.lower_price) :
    (check_alerts σ p).2.filter (fun n => n.symbol = s) = [⟨e.chat_id, s, Dir.lower, q⟩] ∧
    alookup s (check_alerts σ p).1.alerts = some { e with active := false } ∧
    alookup s (check_alerts σ p).1.alert_sent = some { fl with lower_sent := true } := by
  obtain ⟨l₁, l₂, hm, hn1⟩ := alookup_split σ.alerts s e hl
  have hn2 : s ∉ l₂.map Prod.fst := by
    rw [hm] at hnd
    simp only [List.map_append, List.map_cons] at hnd
    exact (List.nodup_cons.mp (List.Nodup.of_append_right hnd)).1
  obtain ⟨ha1, hs1, hf1⟩ := sweepGo_frame p s l₁ σ
    (fun it hit hits => absurd (List.mem_map.mpr ⟨it, hit, hits⟩) hn1)
  have hsf : sentFlagsOf (sweepGo p σ l₁).1.alert_sent s = fl := by
    unfold sentFlagsOf
    rw [hs1, hfl]
    rfl
  have hfire := processEntry_fire_lower p (sweepGo p σ l₁).1 s e q ha hq hnge hle
    (by rw [hsf]; exact hns)
  obtain ⟨ha3, hs3, hf3⟩ := sweepGo_frame p s l₂
    ({ alerts := dictModify (sweepGo p σ l₁).1.alerts s (fun a => { a with active := false }),
       alert_sent := dictModify (sweepGo p σ l₁).1.alert_sent s
         (fun f => { f with lower_sent := true }) } : BotState)
    (fun it hit hits => absurd (List.mem_map.mpr ⟨it, hit, hits⟩) hn2)
  have hrun : check_alerts σ p =
      ((sweepGo p
          ({ alerts := dictModify (sweepGo p σ l₁).1.alerts s (fun a => { a with active := false }),
             alert_sent := dictModify (sweepGo p σ l₁).1.alert_sent s
               (fun f => { f with lower_sent := true }) } : BotState) l₂).1,
       (sweepGo p σ l₁).2 ++ ([⟨e.chat_id, s, Dir.lower, q⟩] ++
        (sweepGo p
          ({ alerts := dictModify (sweepGo p σ l₁).1.alerts s (fun a => { a with active := false }),
             alert_sent := dictModify (sweepGo p σ l₁).1.alert_sent s
               (fun f => { f with lower_sent := true }) } : BotState) l₂).2)) := by
    unfold check_alerts
    rw [hm, sweepGo_append, sweepGo_cons, hfire]
  rw [hrun]
  refine ⟨?_, ?_, ?_⟩
  · simp [List.filter_append, hf1, hf3]
  · rw [ha3, alookup_dictModify, if_pos rfl, ha1, hl]
    rfl
  · rw [hs3, alookup_dictModify, if_pos rfl, hs1, hfl]
    rfl

theorem sweeps_no_notifs (s : String) (e : AlertEntry) (ps : List (String → Option ℚ)) :
    ∀ σ : BotState, (σ.alerts.map Prod.fst).Nodup →
      alookup s σ.alerts = some e → e.active = false →
      (sweeps σ ps).2.filter (fun n => n.symbol = s) = [] := by
  induction ps with
  | nil => intro σ _ _ _; rfl
  | cons p ps ih =>
    intro σ hnd hl hin
    obtain ⟨ha1, hs1, hf1⟩ := sweepGo_frame p s σ.alerts σ
      (fun it hit hits => Or.inl (by
        have h' : it = (s, it.2) := by
          obtain ⟨k, v⟩ := it
          simp only [Prod.mk.injEq]
          exact ⟨hits, trivial⟩
        rw [alookup_unique σ.alerts s e hnd hl it.2 (h' ▸ hit), hin]))
    have hstep : (sweeps σ (p :: ps)).2 =
        (check_alerts σ p).2 ++ (sweeps (check_alerts σ p).1 ps).2 := rfl
    have hf1' : (check_alerts σ p).2.filter (fun n => n.symbol = s) = [] := hf1
    have hnd' : ((check_alerts σ p).1.alerts.map Prod.fst).Nodup := by
      rw [check_alerts_keys]
      exact hnd
    have hl' : alookup s (check_alerts σ p).1.alerts = some e := by
      have ha1' : alookup s (check_alerts σ p).1.alerts = alookup s σ.alerts := ha1
      rw [ha1']
      exact hl
    rw [hstep, List.filter_append, hf1', ih (check_alerts σ p).1 hnd' hl' hin]
    rfl

/-- C9: a sweep pass in which the quote fetch yields None for the ticker of
a registered entry leaves that entry (thresholds, owner, active flag) and
its notified flags untouched and sends no notification for its symbol. -/
theorem unavailable_frame (σ : BotState) (s : String) (e : AlertEntry)
    (p : String → Option ℚ)
    (hnd : (σ.alerts.map Prod.fst).Nodup)
    (hl : alookup s σ.alerts = some e)
    (hp : p e.ticker = none) :
    alookup s (check_alerts σ p).1.alerts = some e ∧
    alookup s (check_alerts σ p).1.alert_sent = alookup s σ.alert_sent ∧
    (check_alerts σ p).2.filter (fun n => n.symbol = s) = [] := by
  obtain ⟨h1, h2, h3⟩ := sweepGo_frame p s σ.alerts σ
    (fun it hit hits => Or.inr (by
      have h' : it = (s, it.2) := by
        obtain ⟨k, v⟩ := it
        simp only [Prod.mk.injEq]
        exact ⟨hits, trivial⟩
      rw [alookup_unique σ.alerts s e hnd hl it.2 (h' ▸ hit)]
      exact hp))
  exact ⟨h1.trans hl, h2, h3⟩

/-- Witness for C9: an active INFY entry survives an unavailable feed. -/
theorem unavailable_frame_w :
    alookup "INFY" (check_alerts
        ⟨[("INFY", ⟨"INFY.NS", 1550, 1350, "c1", true⟩)], [("INFY", ⟨false, false⟩)]⟩
        (fun _ => none)).1.alerts = some ⟨"INFY.NS", 1550, 1350, "c1", true⟩ ∧
    (check_alerts
        ⟨[("INFY", ⟨"INFY.NS", 1550, 1350, "c1", true⟩)], [("INFY", ⟨false, false⟩)]⟩
        (fun _ => none)).2.filter (fun n => n.symbol = "INFY") = [] := by
  have h := unavailable_frame
    ⟨[("INFY", ⟨"INFY.NS", 1550, 1350, "c1", true⟩)], [("INFY", ⟨false, false⟩)]⟩
    "INFY" ⟨"INFY.NS", 1550, 1350, "c1", true⟩ (fun _ => none)
    (by simp) rfl rfl
  exact ⟨h.1, h.2.2⟩

/-- C1: for a registered, active entry with lower below upper whose upper
flag is not yet set, the first pass observing a price at or above the upper
threshold emits exactly one upper breach notification to the owning chat,
leaves the entry inactive with the upper flag set, and every later sweep
sequence, whatever prices it observes, emits no further notification for
that symbol; symmetrically for the lower threshold. -/
theorem breach_one_shot :
    (∀ (σ : BotState) (s : String) (e : AlertEntry) (fl : SentFlags) (q : ℚ)
        (p : String → Option ℚ) (ps : List (String → Option ℚ)),
      (σ.alerts.map Prod.fst).Nodup →
      alookup s σ.alerts = some e →
      alookup s σ.alert_sent = some fl →
      e.active = true →
      e.lower_price < e.upper_price →
      fl.upper_sent = false →
      p e.ticker = some q →
      e.upper_price ≤ q →
      ((check_alerts σ p).2.filter (fun n => n.symbol = s) = [⟨e.chat_id, s, Dir.upper, q⟩] ∧
       alookup s (check_alerts σ p).1.alerts = some { e with active := false } ∧
       alookup s (check_alerts σ p).1.alert_sent = some { fl with upper_sent := true } ∧
       (sweeps (check_alerts σ p).1 ps).2.filter (fun n => n.symbol = s) = [])) ∧
    (∀ (σ : BotState) (s : String) (e : AlertEntry) (fl : SentFlags) (q : ℚ)
        (p : String → Option ℚ) (ps : List (String → Option ℚ)),
      (σ.alerts.map Prod.fst).Nodup →
      alookup s σ.alerts = some e →
      alookup s σ.alert_sent = some fl →
      e.active = true →
      e.lower_price < e.upper_price →
      fl.lower_sent = false →
      p e.ticker = some q →
      q ≤ e.lower_price →
      ((check_alerts σ p).2.filter (fun n => n.symbol = s) = [⟨e.chat_id, s, Dir.lower, q⟩] ∧
       alookup s (check_alerts σ p).1.alerts = some { e with active := false } ∧
       alookup s (check_alerts σ p).1.alert_sent = some { fl with lower_sent := true } ∧
       (sweeps (check_alerts σ p).1 ps).2.filter (fun n => n.symbol = s) = [])) := by
  constructor
  · intro σ s e fl q p ps hnd hl hfl ha hlt hns hq hge
    obtain ⟨h1, h2, h3⟩ := check_fire_upper σ s e fl q p hnd hl ha hfl hns hq hge
    refine ⟨h1, h2, h3, ?_⟩
    refine sweeps_no_notifs s { e with active := false } ps (check_alerts σ p).1 ?_ h2 rfl
    rw [check_alerts_keys]
    exact hnd
  · intro σ s e fl q p ps hnd hl hfl ha hlt hns hq hle
    have hnge : ¬ q ≥ e.upper_price := not_le.mpr (lt_of_le_of_lt hle hlt)
    obtain ⟨h1, h2, h3⟩ := check_fire_lower σ s e fl q p hnd hl ha hfl hns hq hnge hle
    refine ⟨h1, h2, h3, ?_⟩
    refine sweeps_no_notifs s { e with active := false } ps (check_alerts σ p).1 ?_ h2 rfl
    rw [check_alerts_keys]
    exact hnd

/-- Witness for C1: INFY breaks the upper bound at 1560, one notification,
and a later sweep at 1600 stays silent. -/
theorem breach_one_shot_w :
    (check_alerts
        ⟨[("INFY", ⟨"INFY.NS", 1550, 1350, "c1", true⟩)], [("INFY", ⟨false, false⟩)]⟩
        (fun _ => some 1560)).2.filter (fun n => n.symbol = "INFY") =
      [⟨"c1", "INFY", Dir.upper, 1560⟩] ∧
    alookup "INFY" (check_alerts
        ⟨[("INFY", ⟨"INFY.NS", 1550, 1350, "c1", true⟩)], [("INFY", ⟨false, false⟩)]⟩
        (fun _ => some 1560)).1.alerts = some ⟨"INFY.NS", 1550, 1350, "c1", false⟩ ∧
    alookup "INFY" (check_alerts
        ⟨[("INFY", ⟨"INFY.NS", 1550, 1350, "c1", true⟩)], [("INFY", ⟨false, false⟩)]⟩
        (fun _ => some 1560)).1.alert_sent = some ⟨true, false⟩ ∧
    (sweeps (check_alerts
        ⟨[("INFY", ⟨"INFY.NS", 1550, 1350, "c1", true⟩)], [("INFY", ⟨false, false⟩)]⟩
        (fun _ => some 1560)).1 [fun _ => some 1600]).2.filter
      (fun n => n.symbol = "INFY") = [] :=
  breach_one_shot.1
    ⟨[("INFY", ⟨"INFY.NS", 1550, 1350, "c1", true⟩)], [("INFY", ⟨false, false⟩)]⟩
    "INFY" ⟨"INFY.NS", 1550, 1350, "c1", true⟩ ⟨false, false⟩ 1560
    (fun _ => some 1560) [fun _ => some 1600]
    (by simp) rfl rfl rfl (by norm_num) rfl rfl (by norm_num)

end StockAlerts
